import Mathlib

/-!
Verification development for the helm release-lifecycle engine.

The repository ships the Install action's test suite (`pkg/action/install_test.go`)
and the upgrade command (`pkg/cmd/upgrade.go`).  The Install action itself, the
name-template evaluator and the ownership validator are not part of the shipped
sources, so they are modelled here from the specification (each such definition
carries a doc comment starting `Modelled from the spec:`).  The upgrade command's
install-delegation logic is translated directly from `pkg/cmd/upgrade.go`.
-/

namespace Helm

/-- Release status enum, from the spec's data model (section 3). -/
inductive Status where
  | unknown
  | pendingInstall
  | pendingUpgrade
  | pendingRollback
  | deployed
  | failed
  | superseded
  | uninstalling
  | uninstalled
deriving DecidableEq, Repr

/-- A lifecycle hook: manifest text, trigger events, and a last-run record whose
zero completion timestamp means "never run" (spec section 3). -/
structure Hook where
  manifest : String
  events : List String
  lastRunCompletedAt : Nat
deriving DecidableEq, Repr

/-- A release record: identity is (name, namespace, version) (spec section 3). -/
structure Release where
  name : String
  nspace : String
  version : Nat
  status : Status
  manifest : String
  description : String
  hooks : List Hook
deriving DecidableEq, Repr

/-- Storage driver errors.  `releaseNotFound` is the distinguished sentinel that
callers compare by identity, never by string match (spec section 6). -/
inductive DriverError where
  | releaseNotFound
  | other (msg : String)
deriving DecidableEq, Repr

/-- The release store: durable keyed storage for release records (spec section 2). -/
abbrev Store := List Release

/-- True when a stored record has the given name and version. -/
def keyMatches (n : String) (v : Nat) (r : Release) : Bool :=
  r.name == n && r.version == v

/-- Modelled from the spec: the Release Store's `Get(name, version)`, returning
the distinguished not-found sentinel when no record matches (spec section 6). -/
def storeGet (s : Store) (n : String) (v : Nat) : Except DriverError Release :=
  match s.find? (keyMatches n v) with
  | some r => Except.ok r
  | none => Except.error DriverError.releaseNotFound

/-- Modelled from the spec: the Release Store's `Create(release)` (spec section 6). -/
def storeCreate (s : Store) (r : Release) : Store := s ++ [r]

/-- Modelled from the spec: the Release Store's `Update(release)`, rewriting the
record with the same name and version (spec section 6). -/
def storeUpdate (s : Store) (r : Release) : Store :=
  s.map (fun x => if keyMatches r.name r.version x then r else x)

/-- Modelled from the spec: removing every record of a release name from the
store, as the atomic-install cleanup does (spec section 4.4: "removes the
release from the store entirely"). -/
def storeDeleteName (s : Store) (n : String) : Store :=
  s.filter (fun r => !(r.name == n))

/-- Version numbers already present in the store for a given release name. -/
def usedVersions (s : Store) (n : String) : List Nat :=
  (s.filter (fun r => r.name == n)).map (fun r => r.version)

/-- Modelled from the spec: the Release Store's `Last(name)` — the stored record
with the highest version for the name (spec section 6). -/
def storeLast (s : Store) (n : String) : Option Release :=
  (s.filter (fun r => r.name == n)).foldl
    (fun acc r =>
      match acc with
      | none => some r
      | some a => if a.version ≤ r.version then some r else some a)
    none

/-- First candidate of the list not occurring in `used`; falls back to
`used.length + 1` when the candidate list is exhausted. -/
def firstNotIn (used : List Nat) : List Nat → Nat
  | [] => used.length + 1
  | c :: cs => if c ∈ used then firstNotIn used cs else c

/-- Modelled from the spec: the version assigned to a new release record — the
smallest unused positive integer for the release name (spec section 3 invariant
together with the replace-semantics property of section 8). -/
def nextVersion (used : List Nat) : Nat :=
  firstNotIn used (List.range' 1 (used.length + 1))

theorem firstNotIn_range'_pos (used : List Nat) :
    ∀ n s, 0 < s → 0 < firstNotIn used (List.range' s n) := by
  intro n
  induction n with
  | zero => intro s _; simp [List.range', firstNotIn]
  | succ n ih =>
      intro s hs
      simp only [List.range', firstNotIn]
      split
      · exact ih (s + 1) (Nat.succ_pos s)
      · exact hs

theorem firstNotIn_range'_not_mem_or_all (used : List Nat) :
    ∀ n s, firstNotIn used (List.range' s n) ∉ used ∨
      ∀ c ∈ List.range' s n, c ∈ used := by
  intro n
  induction n with
  | zero => intro s; right; intro c hc; simp [List.range'] at hc
  | succ n ih =>
      intro s
      simp only [List.range', firstNotIn]
      by_cases hs : s ∈ used
      · rw [if_pos hs]
        rcases ih (s + 1) with h | h
        · exact Or.inl h
        · right
          intro c hc
          rcases List.mem_cons.mp hc with rfl | hc
          · exact hs
          · exact h c hc
      · rw [if_neg hs]
        exact Or.inl hs

theorem firstNotIn_range'_min (used : List Nat) :
    ∀ n s m, s ≤ m → m < firstNotIn used (List.range' s n) → m < s + n →
      m ∈ used := by
  intro n
  induction n with
  | zero => intro s m hsm _ hlt; omega
  | succ n ih =>
      intro s m hsm hm hub
      simp only [List.range', firstNotIn] at hm
      by_cases hs : s ∈ used
      · rw [if_pos hs] at hm
        rcases Nat.eq_or_lt_of_le hsm with rfl | hlt
        · exact hs
        · exact ih (s + 1) m hlt hm (by omega)
      · rw [if_neg hs] at hm
        omega

theorem firstNotIn_range'_le (used : List Nat) :
    ∀ n s, firstNotIn used (List.range' s n) ≤ s + n ∨
      firstNotIn used (List.range' s n) = used.length + 1 := by
  intro n
  induction n with
  | zero => intro s; right; simp [List.range', firstNotIn]
  | succ n ih =>
      intro s
      simp only [List.range', firstNotIn]
      by_cases hs : s ∈ used
      · rw [if_pos hs]
        rcases ih (s + 1) with h | h
        · left; omega
        · right; exact h
      · rw [if_neg hs]
        left; omega

theorem nextVersion_pos (used : List Nat) : 0 < nextVersion used :=
  firstNotIn_range'_pos used (used.length + 1) 1 Nat.one_pos

theorem nextVersion_not_mem (used : List Nat) : nextVersion used ∉ used := by
  rcases firstNotIn_range'_not_mem_or_all used (used.length + 1) 1 with h | h
  · exact h
  · exfalso
    have hsub : (List.range' 1 (used.length + 1)).toFinset ⊆ used.toFinset := by
      intro x hx
      rw [List.mem_toFinset] at hx ⊢
      exact h x hx
    have hnodup : (List.range' 1 (used.length + 1)).Nodup :=
      List.nodup_range' 1 (used.length + 1) 1 Nat.one_pos
    have hcard1 : (List.range' 1 (used.length + 1)).toFinset.card = used.length + 1 := by
      rw [List.toFinset_card_of_nodup hnodup, List.length_range']
    have hcard2 : used.toFinset.card ≤ used.length := used.toFinset_card_le
    have := Finset.card_le_card hsub
    omega

theorem nextVersion_min (used : List Nat) :
    ∀ m, 0 < m → m < nextVersion used → m ∈ used := by
  intro m hm hlt
  have hub : m < 1 + (used.length + 1) := by
    rcases firstNotIn_range'_le used (used.length + 1) 1 with h | h
    · have := hlt; unfold nextVersion at this; omega
    · have := hlt; unfold nextVersion at this; omega
  exact firstNotIn_range'_min used (used.length + 1) 1 m hm hlt hub

/-- `frontSeg needle hay` is true when `needle` is an initial segment of `hay`. -/
def frontSeg : List Char → List Char → Bool
  | [], _ => true
  | _ :: _, [] => false
  | a :: as, b :: bs => a == b && frontSeg as bs

/-- `hasSeg needle hay` is true when `needle` occurs contiguously inside `hay`. -/
def hasSeg (needle : List Char) : List Char → Bool
  | [] => needle.isEmpty
  | b :: bs => frontSeg needle (b :: bs) || hasSeg needle bs

/-- `strContains hay needle` is true when `needle` is a substring of `hay`. -/
def strContains (hay needle : String) : Bool := hasSeg needle.data hay.data

theorem frontSeg_append (n t : List Char) : frontSeg n (n ++ t) = true := by
  induction n with
  | nil => rfl
  | cons a as ih => simp [frontSeg, ih]

theorem hasSeg_self_append (n t : List Char) : hasSeg n (n ++ t) = true := by
  cases n with
  | nil =>
      cases t with
      | nil => rfl
      | cons b bs => simp [hasSeg, frontSeg]
  | cons a as =>
      have h := frontSeg_append (a :: as) t
      simp only [List.cons_append] at h ⊢
      simp [hasSeg, h]

theorem hasSeg_append_right (n p h : List Char) (hh : hasSeg n h = true) :
    hasSeg n (p ++ h) = true := by
  induction p with
  | nil => simpa using hh
  | cons c cs ih =>
      simp only [List.cons_append, hasSeg, List.append_eq]
      rw [ih]
      simp

theorem frontSeg_extend (n : List Char) :
    ∀ h t, frontSeg n h = true → frontSeg n (h ++ t) = true := by
  induction n with
  | nil => intro h t _; rfl
  | cons a as ih =>
      intro h t hf
      cases h with
      | nil => simp [frontSeg] at hf
      | cons b bs =>
          simp only [frontSeg, Bool.and_eq_true] at hf
          simp only [List.cons_append, frontSeg, Bool.and_eq_true]
          exact ⟨hf.1, ih bs t hf.2⟩

theorem hasSeg_append_left (n : List Char) :
    ∀ h t, hasSeg n h = true → hasSeg n (h ++ t) = true := by
  intro h
  induction h with
  | nil =>
      intro t hh
      simp only [hasSeg, List.isEmpty_iff] at hh
      subst hh
      cases t with
      | nil => rfl
      | cons b bs => simp [hasSeg, frontSeg]
  | cons b bs ih =>
      intro t hh
      simp only [hasSeg, Bool.or_eq_true] at hh
      simp only [List.cons_append, hasSeg, Bool.or_eq_true]
      rcases hh with hf | hr
      · left
        have := frontSeg_extend n (b :: bs) t hf
        simpa using this
      · right
        exact ih t hr

theorem strContains_append_of_right (p h n : String) (hh : strContains h n = true) :
    strContains (p ++ h) n = true := by
  simp only [strContains, String.data_append]
  exact hasSeg_append_right n.data p.data h.data hh

theorem strContains_append_of_left (h t n : String) (hh : strContains h n = true) :
    strContains (h ++ t) n = true := by
  simp only [strContains, String.data_append]
  exact hasSeg_append_left n.data h.data t.data hh

theorem strContains_self (n : String) : strContains n n = true := by
  have := hasSeg_self_append n.data []
  rw [List.append_nil] at this
  exact this

theorem strContains_append_self_right (p n : String) :
    strContains (p ++ n) n = true :=
  strContains_append_of_right p n n (strContains_self n)

theorem strContains_append_self_left (n t : String) :
    strContains (n ++ t) n = true := by
  simp only [strContains, String.data_append]
  exact hasSeg_self_append n.data t.data

theorem storeGet_eq_notFound_of_all_false (s : Store) (n : String) (v : Nat)
    (h : ∀ x ∈ s, keyMatches n v x = false) :
    storeGet s n v = Except.error DriverError.releaseNotFound := by
  unfold storeGet
  have hfind : s.find? (keyMatches n v) = none :=
    List.find?_eq_none.mpr (fun x hx => by simp [h x hx])
  rw [hfind]

theorem keyMatches_false_of_not_used (s : Store) (n : String) (v : Nat)
    (h : v ∉ usedVersions s n) : ∀ x ∈ s, keyMatches n v x = false := by
  intro x hx
  by_contra hkm
  rw [Bool.not_eq_false, keyMatches, Bool.and_eq_true, beq_iff_eq, beq_iff_eq] at hkm
  apply h
  unfold usedVersions
  exact List.mem_map.mpr
    ⟨x, List.mem_filter.mpr ⟨hx, by simp [hkm.1]⟩, hkm.2⟩

theorem storeGet_of_not_used (s : Store) (n : String) (v : Nat)
    (h : v ∉ usedVersions s n) :
    storeGet s n v = Except.error DriverError.releaseNotFound :=
  storeGet_eq_notFound_of_all_false s n v (keyMatches_false_of_not_used s n v h)

theorem storeGet_update_append (s : Store) (p d : Release) (n : String) (v : Nat)
    (hall : ∀ x ∈ s, keyMatches n v x = false)
    (hpn : p.name = n) (hpv : p.version = v)
    (hdn : d.name = n) (hdv : d.version = v) :
    storeGet (storeUpdate (s ++ [p]) d) n v = Except.ok d := by
  induction s with
  | nil =>
      have hkey : keyMatches d.name d.version p = true := by
        simp [keyMatches, hdn, hdv, hpn, hpv]
      simp only [List.nil_append, storeUpdate, List.map_cons, List.map_nil, hkey,
        if_true]
      have hd : keyMatches n v d = true := by simp [keyMatches, hdn, hdv]
      simp [storeGet, List.find?, hd]
  | cons x xs ih =>
      have hx : keyMatches n v x = false := hall x (List.mem_cons_self x xs)
      have hxd : keyMatches d.name d.version x = false := by
        rw [hdn, hdv]; exact hx
      simp only [List.cons_append, storeUpdate, List.map_cons, hxd, if_false]
      have ihh := ih (fun y hy => hall y (List.mem_cons_of_mem x hy))
      simp only [storeUpdate] at ihh
      simp [storeGet, List.find?, hx] at ihh ⊢
      exact ihh

theorem storeGet_deleteName (s : Store) (n : String) (v : Nat) :
    storeGet (storeDeleteName s n) n v = Except.error DriverError.releaseNotFound := by
  apply storeGet_eq_notFound_of_all_false
  intro x hx
  unfold storeDeleteName at hx
  have := (List.mem_filter.mp hx).2
  rw [Bool.not_eq_true'] at this
  simp [keyMatches, this]

/-- A rendered resource manifest: kind, source path and body. -/
structure Manifest where
  kind : String
  source : String
  body : String
deriving DecidableEq, Repr

/-- A rendered bundle, already split into standard resources and hooks
(spec section 4.1 step 5). -/
structure Chart where
  resources : List Manifest
  hooks : List Hook
deriving DecidableEq, Repr

/-- The manifest-text block of a single rendered resource. -/
def manifestEntryText (m : Manifest) : String :=
  "---\n# Source: " ++ m.source ++ "\n" ++ m.body

/-- Concatenation of the manifest blocks of a resource list. -/
def joinManifests : List Manifest → String
  | [] => ""
  | m :: ms => manifestEntryText m ++ joinManifests ms

/-- The designated sensitive resource kind elided by secret-hiding. -/
def secretKind : String := "Secret"

/-- Resources kept in the returned manifest text: all of them, or all but the
sensitive kind when secret-hiding is requested (spec section 4.1). -/
def keptResources (ch : Chart) (hideSecret : Bool) : List Manifest :=
  if hideSecret then ch.resources.filter (fun m => !(m.kind == secretKind))
  else ch.resources

/-- Modelled from the spec: the returned manifest text of an install — rendered
output, with sensitive-kind blocks elided when secret-hiding is on (spec
section 4.1, secret-hiding paragraph). -/
def renderedManifest (ch : Chart) (hideSecret : Bool) : String :=
  joinManifests (keptResources ch hideSecret)

/-- Options of the Install action relevant to the lifecycle engine. -/
structure InstallOpts where
  releaseName : String
  nspace : String
  replace : Bool
  dryRun : Bool
  hideSecret : Bool
  atomic : Bool
  disableHooks : Bool
  takeOwnership : Bool
  wait : Bool
deriving DecidableEq, Repr

/-- A live cluster object's bundle-management provenance metadata
(spec section 3, ownership marker). -/
structure LiveObj where
  managedByLabel : Bool
  annName : Option String
  annNamespace : Option String
deriving DecidableEq, Repr

/-- Outcome of the readiness wait driven by the Wait Coordinator. -/
inductive WaitOutcome where
  | ready
  | waitFailed (msg : String)
  | cancelled
deriving DecidableEq, Repr

/-- Injected outcomes of the external collaborators (resource client, hook
execution, readiness wait, uninstall-delete), mirroring the failing fake
client of the test suite. -/
structure ClusterEnv where
  live : List LiveObj
  hookError : Option String
  waitOutcome : WaitOutcome
  deleteError : Option String
deriving DecidableEq, Repr

/-- Errors surfaced by the Install protocol.  The two atomic constructors keep
the original error joined with, never replaced by, cleanup information
(spec section 4.4). -/
inductive InstallError where
  | validation (msg : String)
  | ownership (msg : String)
  | hookFailure (msg : String)
  | waitFailure (msg : String)
  | cancelled (msg : String)
  | atomicFailed (orig : InstallError)
  | atomicUninstallFailed (orig : InstallError) (cleanup : String)
deriving DecidableEq, Repr

/-- Marker text of a successful atomic rollback, containing both the word
`atomic` and the fact the release was uninstalled. -/
def atomicMarkerPre : String :=
  "release failed, and has been uninstalled due to atomic being set: "

/-- Marker text of an uninstall failure during atomic rollback. -/
def atomicUninstallPre : String :=
  "an error occurred while uninstalling the release during atomic rollback. original install error: "

/-- Modelled from the spec: rendering of install errors into user-visible text;
atomic errors embed the original failure's text verbatim (spec section 4.4). -/
def errText : InstallError → String
  | .validation m => m
  | .ownership m => m
  | .hookFailure m => m
  | .waitFailure m => m
  | .cancelled m => m
  | .atomicFailed orig => atomicMarkerPre ++ errText orig
  | .atomicUninstallFailed orig cleanup =>
      atomicUninstallPre ++ errText orig ++ ": " ++ cleanup

/-- Ownership classification of a live object relative to a release identity
(spec section 4.5). -/
inductive OwnState where
  | ownedBySame
  | ownedByOther
  | unowned
deriving DecidableEq, Repr

/-- Modelled from the spec: a live object is owned by the release when it
carries the management-provenance label and a matching name/namespace
annotation pair; it is unowned when it carries no provenance metadata at all
(spec section 4.5). -/
def ownState (o : LiveObj) (n ns : String) : OwnState :=
  if o.managedByLabel = true ∧ o.annName = some n ∧ o.annNamespace = some ns then
    OwnState.ownedBySame
  else if o.managedByLabel = false ∧ o.annName = none ∧ o.annNamespace = none then
    OwnState.unowned
  else OwnState.ownedByOther

/-- Ownership error message for an unowned existing resource. -/
def unownedOwnershipMsg : String :=
  "unable to continue with install: existing resource is not owned by this release"

/-- Ownership error message for a resource owned by a different release. -/
def otherOwnerMsg : String :=
  "unable to continue with install: existing resource is owned by another release"

/-- Modelled from the spec: the Ownership Validator's `Check` — an unowned
object passes only under `takeOwnership`; an object owned by a different
release always fails; an object owned by this release passes (spec
section 4.5). -/
def checkOwnership (o : LiveObj) (n ns : String) (takeOwnership : Bool) :
    Option InstallError :=
  match ownState o n ns with
  | OwnState.ownedBySame => none
  | OwnState.unowned =>
      if takeOwnership then none
      else some (InstallError.ownership unownedOwnershipMsg)
  | OwnState.ownedByOther => some (InstallError.ownership otherOwnerMsg)

/-- Modelled from the spec: ownership validation over every live resource; the
first conflict aborts (spec section 4.1 step 6). -/
def checkAllOwnership (live : List LiveObj) (n ns : String) (takeOwnership : Bool) :
    Option InstallError :=
  match live with
  | [] => none
  | o :: os =>
      match checkOwnership o n ns takeOwnership with
      | some e => some e
      | none => checkAllOwnership os n ns takeOwnership

/-- Hook execution marks the last-run record (nonzero completion timestamp). -/
def runHooks (hs : List Hook) : List Hook :=
  hs.map (fun h => { h with lastRunCompletedAt := 1 })

/-- Hooks attached to the final release: untouched when hooks are disabled,
marked as run otherwise (spec section 4.2, last sentence). -/
def finalHooks (opts : InstallOpts) (ch : Chart) : List Hook :=
  if opts.disableHooks then ch.hooks else runHooks ch.hooks

/-- The release record assembled by the Install protocol for a given version. -/
def baseRelease (opts : InstallOpts) (ch : Chart) (vsn : Nat) (st : Status)
    (desc : String) : Release :=
  { name := opts.releaseName
    nspace := opts.nspace
    version := vsn
    status := st
    manifest := renderedManifest ch opts.hideSecret
    description := desc
    hooks := ch.hooks }

/-- The release returned by a dry-run install: never persisted, description
`Dry run complete`, hooks never run (spec sections 4.1 step 12 and 8). -/
def dryRunRelease (opts : InstallOpts) (ch : Chart) (vsn : Nat) : Release :=
  baseRelease opts ch vsn Status.deployed "Dry run complete"

/-- Validation message for a missing release name. -/
def noNameMsg : String := "no name provided"

/-- Validation message for secret-hiding without dry-run. -/
def hideSecretMsg : String := "hiding Kubernetes secrets requires a dry-run mode"

/-- Validation message for a name that is still in use. -/
def nameInUseMsg : String := "cannot re-use a name that is still in use"

/-- Modelled from the spec: a release name is available when no record exists,
or when `Replace` is set and the latest record is non-deployed (uninstalled or
failed) (spec section 4.1 step 2). -/
def nameAvailable (opts : InstallOpts) (s : Store) : Bool :=
  match storeLast s opts.releaseName with
  | none => true
  | some r =>
      opts.replace && (r.status == Status.uninstalled || r.status == Status.failed)

/-- Modelled from the spec: the Install protocol's validation stage, reported
immediately with no remote side effect (spec sections 4.1 steps 1-2 and 7's
error taxonomy). -/
def preflight (opts : InstallOpts) (s : Store) : Option InstallError :=
  if opts.releaseName = "" then some (InstallError.validation noNameMsg)
  else if opts.hideSecret = true ∧ opts.dryRun = false then
    some (InstallError.validation hideSecretMsg)
  else if nameAvailable opts s = false then
    some (InstallError.validation nameInUseMsg)
  else none

/-- Result of an Install call: the returned release (present even on certain
failures), the error, and the store afterwards. -/
structure InstallOut where
  rel : Option Release
  err : Option InstallError
  store : Store
deriving DecidableEq, Repr

/-- Hook failure observed by the install, unless hooks are disabled. -/
def hookOutcome (opts : InstallOpts) (env : ClusterEnv) : Option String :=
  if opts.disableHooks then none else env.hookError

/-- Modelled from the spec: the readiness wait runs when waiting is requested
or `Atomic` forces it; failure and cancellation both surface as errors
(spec sections 4.1 step 11 and 4.3). -/
def waitOutcomeErr (opts : InstallOpts) (env : ClusterEnv) : Option InstallError :=
  if opts.wait || opts.atomic then
    match env.waitOutcome with
    | WaitOutcome.ready => none
    | WaitOutcome.waitFailed msg => some (InstallError.waitFailure msg)
    | WaitOutcome.cancelled => some (InstallError.cancelled "context canceled")
  else none

/-- The `pending-install` checkpoint record persisted before any remote apply
(spec section 4.1 step 7). -/
def pendRelease (opts : InstallOpts) (ch : Chart) (vsn : Nat) : Release :=
  baseRelease opts ch vsn Status.pendingInstall "Initial install underway"

/-- The checkpoint record after hooks ran (or were skipped). -/
def readyRelease (opts : InstallOpts) (ch : Chart) (vsn : Nat) : Release :=
  { pendRelease opts ch vsn with hooks := finalHooks opts ch }

/-- The final successful release record (spec section 4.1 step 12). -/
def deployedRelease (opts : InstallOpts) (ch : Chart) (vsn : Nat) : Release :=
  { readyRelease opts ch vsn with
      status := Status.deployed
      description := "Install complete" }

/-- A release record marked `failed` with the error's text as description. -/
def failedRelease (rel : Release) (orig : InstallError) : Release :=
  { rel with status := Status.failed, description := errText orig }

/-- Modelled from the spec: the failure sub-protocol — the record is marked
`failed`; with `Atomic`, a successful cleanup uninstall removes the release
from the store entirely, and a failed cleanup joins both errors (spec
section 4.4). -/
def failRelease (opts : InstallOpts) (env : ClusterEnv) (rel : Release) (s : Store)
    (orig : InstallError) : InstallOut :=
  if opts.atomic then
    match env.deleteError with
    | none =>
        ⟨some (failedRelease rel orig), some (InstallError.atomicFailed orig),
          storeDeleteName (storeUpdate s (failedRelease rel orig)) rel.name⟩
    | some cleanup =>
        ⟨some (failedRelease rel orig),
          some (InstallError.atomicUninstallFailed orig cleanup),
          storeUpdate s (failedRelease rel orig)⟩
  else ⟨some (failedRelease rel orig), some orig, storeUpdate s (failedRelease rel orig)⟩

/-- Modelled from the spec: the post-validation install — persist the
`pending-install` checkpoint, run hooks, wait for readiness, and either mark
the release `deployed` or enter the failure sub-protocol (spec section 4.1
steps 7-12). -/
def performInstall (opts : InstallOpts) (ch : Chart) (env : ClusterEnv) (s : Store)
    (vsn : Nat) : InstallOut :=
  match hookOutcome opts env with
  | some msg =>
      failRelease opts env (pendRelease opts ch vsn)
        (storeCreate s (pendRelease opts ch vsn))
        (InstallError.hookFailure ("failed post-install: " ++ msg))
  | none =>
      match waitOutcomeErr opts env with
      | some werr =>
          failRelease opts env (readyRelease opts ch vsn)
            (storeCreate s (pendRelease opts ch vsn)) werr
      | none =>
          ⟨some (deployedRelease opts ch vsn), none,
            storeUpdate (storeCreate s (pendRelease opts ch vsn))
              (deployedRelease opts ch vsn)⟩

/-- Modelled from the spec: the Install operation of the Release Orchestrator
(spec section 4.1) — validation, version allocation, the dry-run short
circuit, ownership validation, then the persisted install. -/
def install (opts : InstallOpts) (ch : Chart) (env : ClusterEnv) (s : Store) :
    InstallOut :=
  match preflight opts s with
  | some e => ⟨none, some e, s⟩
  | none =>
      if opts.dryRun then
        ⟨some (dryRunRelease opts ch (nextVersion (usedVersions s opts.releaseName))),
          none, s⟩
      else
        match checkAllOwnership env.live opts.releaseName opts.nspace opts.takeOwnership with
        | some e => ⟨none, some e, s⟩
        | none =>
            performInstall opts ch env s (nextVersion (usedVersions s opts.releaseName))

/-- The store's `Get` applied to the name and version of the release an install
returned, when one was returned. -/
def getOfReturned (o : InstallOut) : Option (Except DriverError Release) :=
  match o.rel with
  | some r => some (storeGet o.store r.name r.version)
  | none => none

theorem failRelease_err_ne_none (opts : InstallOpts) (env : ClusterEnv)
    (rel : Release) (s : Store) (orig : InstallError) :
    (failRelease opts env rel s orig).err ≠ none := by
  unfold failRelease
  split
  · cases env.deleteError <;> simp
  · simp

theorem install_preflight_some_eq (opts : InstallOpts) (ch : Chart) (env : ClusterEnv)
    (s : Store) (e : InstallError) (hp : preflight opts s = some e) :
    install opts ch env s = ⟨none, some e, s⟩ := by
  unfold install; rw [hp]

theorem install_dryRun_eq (opts : InstallOpts) (ch : Chart) (env : ClusterEnv)
    (s : Store) (hp : preflight opts s = none) (hdry : opts.dryRun = true) :
    install opts ch env s =
      ⟨some (dryRunRelease opts ch (nextVersion (usedVersions s opts.releaseName))),
        none, s⟩ := by
  unfold install; rw [hp, hdry]; rfl

theorem install_ownership_some_eq (opts : InstallOpts) (ch : Chart) (env : ClusterEnv)
    (s : Store) (e : InstallError) (hp : preflight opts s = none)
    (hdry : opts.dryRun = false)
    (ho : checkAllOwnership env.live opts.releaseName opts.nspace opts.takeOwnership =
      some e) :
    install opts ch env s = ⟨none, some e, s⟩ := by
  unfold install; rw [hp, hdry, ho]; rfl

theorem install_hookFail_eq (opts : InstallOpts) (ch : Chart) (env : ClusterEnv)
    (s : Store) (msg : String) (hp : preflight opts s = none)
    (hdry : opts.dryRun = false)
    (ho : checkAllOwnership env.live opts.releaseName opts.nspace opts.takeOwnership = none)
    (hh : hookOutcome opts env = some msg) :
    install opts ch env s =
      failRelease opts env
        (pendRelease opts ch (nextVersion (usedVersions s opts.releaseName)))
        (storeCreate s (pendRelease opts ch (nextVersion (usedVersions s opts.releaseName))))
        (InstallError.hookFailure ("failed post-install: " ++ msg)) := by
  unfold install performInstall; rw [hp, hdry, ho, hh]; rfl

theorem install_waitFail_eq (opts : InstallOpts) (ch : Chart) (env : ClusterEnv)
    (s : Store) (werr : InstallError) (hp : preflight opts s = none)
    (hdry : opts.dryRun = false)
    (ho : checkAllOwnership env.live opts.releaseName opts.nspace opts.takeOwnership = none)
    (hh : hookOutcome opts env = none) (hw : waitOutcomeErr opts env = some werr) :
    install opts ch env s =
      failRelease opts env
        (readyRelease opts ch (nextVersion (usedVersions s opts.releaseName)))
        (storeCreate s (pendRelease opts ch (nextVersion (usedVersions s opts.releaseName))))
        werr := by
  unfold install performInstall; rw [hp, hdry, ho, hh, hw]; rfl

theorem install_success_eq (opts : InstallOpts) (ch : Chart) (env : ClusterEnv)
    (s : Store) (hp : preflight opts s = none) (hdry : opts.dryRun = false)
    (ho : checkAllOwnership env.live opts.releaseName opts.nspace opts.takeOwnership = none)
    (hh : hookOutcome opts env = none) (hw : waitOutcomeErr opts env = none) :
    install opts ch env s =
      ⟨some (deployedRelease opts ch (nextVersion (usedVersions s opts.releaseName))),
        none,
        storeUpdate
          (storeCreate s (pendRelease opts ch (nextVersion (usedVersions s opts.releaseName))))
          (deployedRelease opts ch (nextVersion (usedVersions s opts.releaseName)))⟩ := by
  unfold install performInstall; rw [hp, hdry, ho, hh, hw]; rfl

theorem strContains_joinManifests (ms : List Manifest) (m : Manifest) (hm : m ∈ ms) :
    strContains (joinManifests ms) (manifestEntryText m) = true := by
  induction ms with
  | nil => cases hm
  | cons x xs ih =>
      rcases List.mem_cons.mp hm with rfl | hm'
      · exact strContains_append_self_left _ _
      · exact strContains_append_of_right (manifestEntryText x) (joinManifests xs) _ (ih hm')

/-- Claim C1 (amended): for every non-dry-run Install that returns without
error, the returned release's status is `deployed`, its version is the
smallest unused positive integer for that release name, and the store's `Get`
with the returned name and version yields that same persisted record. -/
theorem install_success_characterization
    (opts : InstallOpts) (ch : Chart) (env : ClusterEnv) (s : Store)
    (herr : (install opts ch env s).err = none)
    (hdry : opts.dryRun = false) :
    ∃ rel, (install opts ch env s).rel = some rel ∧
      rel.name = opts.releaseName ∧
      rel.status = Status.deployed ∧
      0 < rel.version ∧
      rel.version ∉ usedVersions s opts.releaseName ∧
      (∀ m, 0 < m → m < rel.version → m ∈ usedVersions s opts.releaseName) ∧
      storeGet (install opts ch env s).store rel.name rel.version = Except.ok rel := by
  cases hp : preflight opts s with
  | some e =>
      rw [install_preflight_some_eq opts ch env s e hp] at herr
      simp at herr
  | none =>
    cases ho : checkAllOwnership env.live opts.releaseName opts.nspace opts.takeOwnership with
    | some e =>
        rw [install_ownership_some_eq opts ch env s e hp hdry ho] at herr
        simp at herr
    | none =>
      cases hh : hookOutcome opts env with
      | some msg =>
          rw [install_hookFail_eq opts ch env s msg hp hdry ho hh] at herr
          exact absurd herr (failRelease_err_ne_none _ _ _ _ _)
      | none =>
        cases hw : waitOutcomeErr opts env with
        | some werr =>
            rw [install_waitFail_eq opts ch env s werr hp hdry ho hh hw] at herr
            exact absurd herr (failRelease_err_ne_none _ _ _ _ _)
        | none =>
          rw [install_success_eq opts ch env s hp hdry ho hh hw]
          refine ⟨deployedRelease opts ch (nextVersion (usedVersions s opts.releaseName)),
            rfl, rfl, rfl, ?_, ?_, ?_, ?_⟩
          · exact nextVersion_pos _
          · exact nextVersion_not_mem _
          · exact fun m hm hlt => nextVersion_min _ m hm hlt
          · exact storeGet_update_append s
              (pendRelease opts ch (nextVersion (usedVersions s opts.releaseName)))
              (deployedRelease opts ch (nextVersion (usedVersions s opts.releaseName)))
              opts.releaseName (nextVersion (usedVersions s opts.releaseName))
              (keyMatches_false_of_not_used s opts.releaseName _ (nextVersion_not_mem _))
              rfl rfl rfl rfl

/-- A rendered hook fixture with its last-run record at the zero value. -/
def hookFix : Hook :=
  { manifest := "kind: ConfigMap\nmetadata:\n  name: test-cm-hook"
    events := ["post-install", "pre-delete"]
    lastRunCompletedAt := 0 }

/-- A plain rendered resource fixture. -/
def helloManifest : Manifest :=
  { kind := "ConfigMap", source := "hello/templates/hello", body := "hello: world" }

/-- A rendered resource of the sensitive kind. -/
def secretManifest : Manifest :=
  { kind := "Secret", source := "hello/templates/secret.yaml"
    body := "apiVersion: v1\nkind: Secret" }

/-- A rendered chart fixture with one resource and one hook. -/
def chartFix : Chart := { resources := [helloManifest], hooks := [hookFix] }

/-- A rendered chart fixture containing a secret alongside a plain resource. -/
def chartWithSecret : Chart :=
  { resources := [secretManifest, helloManifest], hooks := [hookFix] }

/-- Baseline install options used by the concrete scenarios. -/
def baseOpts : InstallOpts :=
  { releaseName := "test-install-release", nspace := "spaced", replace := false
    dryRun := false, hideSecret := false, atomic := false, disableHooks := false
    takeOwnership := false, wait := false }

/-- An environment where every external collaborator succeeds. -/
def quietEnv : ClusterEnv :=
  { live := [], hookError := none, waitOutcome := WaitOutcome.ready, deleteError := none }

/-- Install options with `Replace` set. -/
def replOpts : InstallOpts := { baseOpts with replace := true }

/-- A stored uninstalled version-1 record of the fixture release name. -/
def uninstalledV1 : Release :=
  { name := "test-install-release", nspace := "spaced", version := 1
    status := Status.uninstalled, manifest := "", description := "Uninstallation complete"
    hooks := [] }

theorem install_success_characterization_witness :
    ((install replOpts chartFix quietEnv [uninstalledV1]).err = none ∧
      replOpts.dryRun = false) ∧
    (∃ rel, (install replOpts chartFix quietEnv [uninstalledV1]).rel = some rel ∧
      rel.name = replOpts.releaseName ∧
      rel.status = Status.deployed ∧
      0 < rel.version ∧
      rel.version ∉ usedVersions [uninstalledV1] replOpts.releaseName ∧
      (∀ m, 0 < m → m < rel.version →
        m ∈ usedVersions [uninstalledV1] replOpts.releaseName) ∧
      storeGet (install replOpts chartFix quietEnv [uninstalledV1]).store
        rel.name rel.version = Except.ok rel) :=
  ⟨⟨rfl, rfl⟩,
    install_success_characterization replOpts chartFix quietEnv [uninstalledV1] rfl rfl⟩

/-- Baseline options with dry-run set. -/
def dryOpts : InstallOpts := { baseOpts with dryRun := true }

/-- Claim C1 (counterexample): a dry-run Install returns without error, yet the
store's `Get` with the returned release's name and version does not yield a
persisted record — it yields the not-found sentinel. -/
theorem install_dryRun_get_fails_cex :
    (install dryOpts chartFix quietEnv []).err = none ∧
    getOfReturned (install dryOpts chartFix quietEnv []) =
      some (Except.error DriverError.releaseNotFound) :=
  ⟨rfl, rfl⟩

theorem failRelease_atomic_ok_eq (opts : InstallOpts) (env : ClusterEnv)
    (rel : Release) (s : Store) (orig : InstallError)
    (ha : opts.atomic = true) (hd : env.deleteError = none) :
    failRelease opts env rel s orig =
      ⟨some (failedRelease rel orig), some (InstallError.atomicFailed orig),
        storeDeleteName (storeUpdate s (failedRelease rel orig)) rel.name⟩ := by
  unfold failRelease; rw [ha, hd]; rfl

theorem failRelease_atomic_fail_eq (opts : InstallOpts) (env : ClusterEnv)
    (rel : Release) (s : Store) (orig : InstallError) (c : String)
    (ha : opts.atomic = true) (hd : env.deleteError = some c) :
    failRelease opts env rel s orig =
      ⟨some (failedRelease rel orig),
        some (InstallError.atomicUninstallFailed orig c),
        storeUpdate s (failedRelease rel orig)⟩ := by
  unfold failRelease; rw [ha, hd]; rfl

theorem checkAllOwnership_single (o : LiveObj) (n ns : String) (t : Bool) :
    checkAllOwnership [o] n ns t = checkOwnership o n ns t := by
  unfold checkAllOwnership
  cases checkOwnership o n ns t <;> rfl

/-- Claim C3: for every Install with `Atomic` whose readiness wait fails (by
error or cancellation) and whose cleanup uninstall succeeds, the release is
removed from the store entirely: `Get` for that name (at any version) returns
the distinguished release-not-found sentinel, compared by identity. -/
theorem install_atomic_cleanup_removes_release
    (opts : InstallOpts) (ch : Chart) (env : ClusterEnv) (s : Store)
    (werr : InstallError)
    (hp : preflight opts s = none) (hdry : opts.dryRun = false)
    (ho : checkAllOwnership env.live opts.releaseName opts.nspace opts.takeOwnership = none)
    (hh : hookOutcome opts env = none)
    (hw : waitOutcomeErr opts env = some werr)
    (hatomic : opts.atomic = true)
    (hdel : env.deleteError = none) :
    (install opts ch env s).err = some (InstallError.atomicFailed werr) ∧
    ∀ v, storeGet (install opts ch env s).store opts.releaseName v =
      Except.error DriverError.releaseNotFound := by
  rw [install_waitFail_eq opts ch env s werr hp hdry ho hh hw,
    failRelease_atomic_ok_eq _ _ _ _ _ hatomic hdel]
  exact ⟨rfl, fun v => storeGet_deleteName _ _ v⟩

/-- Install options of the atomic wait-failure scenario. -/
def atomicOpts : InstallOpts :=
  { baseOpts with releaseName := "come-fail-away", atomic := true, disableHooks := true }

/-- Environment where the readiness wait times out and deletes succeed. -/
def timeoutEnv : ClusterEnv :=
  { live := [], hookError := none
    waitOutcome := WaitOutcome.waitFailed "I timed out", deleteError := none }

theorem install_atomic_cleanup_removes_release_witness :
    (preflight atomicOpts [] = none ∧ atomicOpts.dryRun = false ∧
      hookOutcome atomicOpts timeoutEnv = none ∧
      waitOutcomeErr atomicOpts timeoutEnv =
        some (InstallError.waitFailure "I timed out") ∧
      atomicOpts.atomic = true ∧ timeoutEnv.deleteError = none) ∧
    ((install atomicOpts chartFix timeoutEnv []).err =
        some (InstallError.atomicFailed (InstallError.waitFailure "I timed out")) ∧
      storeGet (install atomicOpts chartFix timeoutEnv []).store
        atomicOpts.releaseName 1 = Except.error DriverError.releaseNotFound) :=
  ⟨⟨rfl, rfl, rfl, rfl, rfl, rfl⟩,
    ⟨(install_atomic_cleanup_removes_release atomicOpts chartFix timeoutEnv []
        (InstallError.waitFailure "I timed out") rfl rfl rfl rfl rfl rfl rfl).1,
      (install_atomic_cleanup_removes_release atomicOpts chartFix timeoutEnv []
        (InstallError.waitFailure "I timed out") rfl rfl rfl rfl rfl rfl rfl).2 1⟩⟩

/-- Claim C4: the error of every atomic-rollback path contains the original
failure's text and an explicit marker that an atomic rollback occurred; on
cleanup failure the error additionally contains the cleanup text and the
uninstall-failure phrase — joined to, not substituted for, the original. -/
theorem install_atomic_error_texts
    (opts : InstallOpts) (ch : Chart) (env : ClusterEnv) (s : Store)
    (werr : InstallError)
    (hp : preflight opts s = none) (hdry : opts.dryRun = false)
    (ho : checkAllOwnership env.live opts.releaseName opts.nspace opts.takeOwnership = none)
    (hatomic : opts.atomic = true)
    (hfail :
      (∃ msg, hookOutcome opts env = some msg ∧
        werr = InstallError.hookFailure ("failed post-install: " ++ msg)) ∨
      (hookOutcome opts env = none ∧ waitOutcomeErr opts env = some werr)) :
    (env.deleteError = none →
      (install opts ch env s).err = some (InstallError.atomicFailed werr) ∧
      strContains (errText (InstallError.atomicFailed werr)) (errText werr) = true ∧
      strContains (errText (InstallError.atomicFailed werr)) "atomic" = true ∧
      strContains (errText (InstallError.atomicFailed werr)) "uninstalled" = true) ∧
    (∀ c, env.deleteError = some c →
      (install opts ch env s).err =
        some (InstallError.atomicUninstallFailed werr c) ∧
      strContains (errText (InstallError.atomicUninstallFailed werr c))
        (errText werr) = true ∧
      strContains (errText (InstallError.atomicUninstallFailed werr c)) c = true ∧
      strContains (errText (InstallError.atomicUninstallFailed werr c))
        "an error occurred while uninstalling the release" = true ∧
      strContains (errText (InstallError.atomicUninstallFailed werr c))
        "atomic" = true) := by
  have htext : errText (InstallError.atomicFailed werr) =
      atomicMarkerPre ++ errText werr := rfl
  constructor
  · intro hdel
    have herr : (install opts ch env s).err =
        some (InstallError.atomicFailed werr) := by
      rcases hfail with ⟨msg, hh, hwe⟩ | ⟨hh, hw⟩
      · rw [install_hookFail_eq opts ch env s msg hp hdry ho hh,
          failRelease_atomic_ok_eq _ _ _ _ _ hatomic hdel, hwe]
      · rw [install_waitFail_eq opts ch env s werr hp hdry ho hh hw,
          failRelease_atomic_ok_eq _ _ _ _ _ hatomic hdel]
    refine ⟨herr, ?_, ?_, ?_⟩
    · rw [htext]; exact strContains_append_self_right _ _
    · rw [htext]
      exact strContains_append_of_left _ _ _ (by decide)
    · rw [htext]
      exact strContains_append_of_left _ _ _ (by decide)
  · intro c hdel
    have herr : (install opts ch env s).err =
        some (InstallError.atomicUninstallFailed werr c) := by
      rcases hfail with ⟨msg, hh, hwe⟩ | ⟨hh, hw⟩
      · rw [install_hookFail_eq opts ch env s msg hp hdry ho hh,
          failRelease_atomic_fail_eq _ _ _ _ _ c hatomic hdel, hwe]
      · rw [install_waitFail_eq opts ch env s werr hp hdry ho hh hw,
          failRelease_atomic_fail_eq _ _ _ _ _ c hatomic hdel]
    have htext2 : errText (InstallError.atomicUninstallFailed werr c) =
        atomicUninstallPre ++ errText werr ++ ": " ++ c := rfl
    refine ⟨herr, ?_, ?_, ?_, ?_⟩
    · rw [htext2]
      exact strContains_append_of_left _ _ _
        (strContains_append_of_left _ _ _ (strContains_append_self_right _ _))
    · rw [htext2]
      exact strContains_append_self_right _ _
    · rw [htext2]
      exact strContains_append_of_left _ _ _
        (strContains_append_of_left _ _ _
          (strContains_append_of_left _ _ _ (by decide)))
    · rw [htext2]
      exact strContains_append_of_left _ _ _
        (strContains_append_of_left _ _ _
          (strContains_append_of_left _ _ _ (by decide)))

/-- Install options of the atomic cleanup-failure scenario. -/
def atomicFailOpts : InstallOpts :=
  { baseOpts with releaseName := "come-fail-away-with-me", atomic := true }

/-- Environment where the wait times out and the cleanup delete also fails. -/
def deleteFailEnv : ClusterEnv :=
  { live := [], hookError := none
    waitOutcome := WaitOutcome.waitFailed "I timed out"
    deleteError := some "uninstall fail" }

theorem install_atomic_error_texts_witness :
    (preflight atomicFailOpts [] = none ∧ atomicFailOpts.dryRun = false ∧
      atomicFailOpts.atomic = true ∧
      hookOutcome atomicFailOpts deleteFailEnv = none ∧
      waitOutcomeErr atomicFailOpts deleteFailEnv =
        some (InstallError.waitFailure "I timed out") ∧
      deleteFailEnv.deleteError = some "uninstall fail") ∧
    ((install atomicFailOpts chartFix deleteFailEnv []).err =
        some (InstallError.atomicUninstallFailed
          (InstallError.waitFailure "I timed out") "uninstall fail") ∧
      strContains
        (errText (InstallError.atomicUninstallFailed
          (InstallError.waitFailure "I timed out") "uninstall fail"))
        (errText (InstallError.waitFailure "I timed out")) = true ∧
      strContains
        (errText (InstallError.atomicUninstallFailed
          (InstallError.waitFailure "I timed out") "uninstall fail"))
        "uninstall fail" = true ∧
      strContains
        (errText (InstallError.atomicUninstallFailed
          (InstallError.waitFailure "I timed out") "uninstall fail"))
        "an error occurred while uninstalling the release" = true ∧
      strContains
        (errText (InstallError.atomicUninstallFailed
          (InstallError.waitFailure "I timed out") "uninstall fail"))
        "atomic" = true) :=
  ⟨⟨rfl, rfl, rfl, rfl, rfl, rfl⟩,
    (install_atomic_error_texts atomicFailOpts chartFix deleteFailEnv []
      (InstallError.waitFailure "I timed out") rfl rfl rfl rfl
      (Or.inr ⟨rfl, rfl⟩)).2 "uninstall fail" rfl⟩

/-- Claim C5: installing over a live object that exists and is unowned fails
with the `unable to continue` ownership error unless `takeOwnership` is set,
in which case it succeeds; over an object owned by the same release identity
it succeeds regardless of the flag. -/
theorem install_ownership_spec
    (opts : InstallOpts) (ch : Chart) (env : ClusterEnv) (s : Store) (o : LiveObj)
    (hp : preflight opts s = none) (hdry : opts.dryRun = false)
    (hlive : env.live = [o])
    (hh : hookOutcome opts env = none) (hw : waitOutcomeErr opts env = none) :
    ((ownState o opts.releaseName opts.nspace = OwnState.unowned ∧
        opts.takeOwnership = false) →
      (install opts ch env s).err = some (InstallError.ownership unownedOwnershipMsg) ∧
      strContains unownedOwnershipMsg "unable to continue" = true) ∧
    ((ownState o opts.releaseName opts.nspace = OwnState.unowned ∧
        opts.takeOwnership = true) →
      (install opts ch env s).err = none) ∧
    (ownState o opts.releaseName opts.nspace = OwnState.ownedBySame →
      (install opts ch env s).err = none) := by
  refine ⟨?_, ?_, ?_⟩
  · intro hcase
    have hco : checkOwnership o opts.releaseName opts.nspace opts.takeOwnership =
        some (InstallError.ownership unownedOwnershipMsg) := by
      unfold checkOwnership
      rw [hcase.1, hcase.2]
      rfl
    have ho : checkAllOwnership env.live opts.releaseName opts.nspace opts.takeOwnership =
        some (InstallError.ownership unownedOwnershipMsg) := by
      rw [hlive, checkAllOwnership_single, hco]
    rw [install_ownership_some_eq opts ch env s _ hp hdry ho]
    exact ⟨rfl, by decide⟩
  · intro hcase
    have hco : checkOwnership o opts.releaseName opts.nspace opts.takeOwnership = none := by
      unfold checkOwnership
      rw [hcase.1, hcase.2]
      rfl
    have ho : checkAllOwnership env.live opts.releaseName opts.nspace opts.takeOwnership =
        none := by
      rw [hlive, checkAllOwnership_single, hco]
    rw [install_success_eq opts ch env s hp hdry ho hh hw]
  · intro hcase
    have hco : checkOwnership o opts.releaseName opts.nspace opts.takeOwnership = none := by
      unfold checkOwnership
      rw [hcase]
    have ho : checkAllOwnership env.live opts.releaseName opts.nspace opts.takeOwnership =
        none := by
      rw [hlive, checkAllOwnership_single, hco]
    rw [install_success_eq opts ch env s hp hdry ho hh hw]

/-- A live object carrying no bundle-management provenance metadata. -/
def unownedObj : LiveObj :=
  { managedByLabel := false, annName := none, annNamespace := none }

/-- Install options with `takeOwnership` set. -/
def takeOwnOpts : InstallOpts := { baseOpts with takeOwnership := true }

/-- Environment whose live cluster holds one unowned object. -/
def unownedEnv : ClusterEnv := { quietEnv with live := [unownedObj] }

theorem install_ownership_spec_witness :
    (preflight takeOwnOpts [] = none ∧ takeOwnOpts.dryRun = false ∧
      unownedEnv.live = [unownedObj] ∧
      hookOutcome takeOwnOpts unownedEnv = none ∧
      waitOutcomeErr takeOwnOpts unownedEnv = none ∧
      ownState unownedObj takeOwnOpts.releaseName takeOwnOpts.nspace =
        OwnState.unowned ∧
      takeOwnOpts.takeOwnership = true) ∧
    (install takeOwnOpts chartFix unownedEnv []).err = none :=
  ⟨⟨rfl, rfl, rfl, rfl, rfl, rfl, rfl⟩,
    (install_ownership_spec takeOwnOpts chartFix unownedEnv [] unownedObj
      rfl rfl rfl rfl rfl).2.1 ⟨rfl, rfl⟩⟩

/-- Claim C6: a dry-run Install, whether it succeeds or fails, persists no
release record: the store is unchanged, the store's `Get` for the returned
release's name and version errors with the not-found sentinel, the returned
description is `Dry run complete`, and no hook's last-run completion
timestamp is set. -/
theorem install_dryRun_frame
    (opts : InstallOpts) (ch : Chart) (env : ClusterEnv) (s : Store)
    (hdry : opts.dryRun = true)
    (hfresh : ∀ hk ∈ ch.hooks, hk.lastRunCompletedAt = 0) :
    (install opts ch env s).store = s ∧
    (∀ rel, (install opts ch env s).rel = some rel →
      rel.description = "Dry run complete" ∧
      storeGet s rel.name rel.version = Except.error DriverError.releaseNotFound ∧
      ∀ hk ∈ rel.hooks, hk.lastRunCompletedAt = 0) := by
  cases hp : preflight opts s with
  | some e =>
      rw [install_preflight_some_eq opts ch env s e hp]
      exact ⟨rfl, fun rel h => by simp at h⟩
  | none =>
      rw [install_dryRun_eq opts ch env s hp hdry]
      refine ⟨rfl, fun rel h => ?_⟩
      have hrel : dryRunRelease opts ch (nextVersion (usedVersions s opts.releaseName)) =
          rel := by
        injection h
      subst hrel
      refine ⟨rfl, ?_, ?_⟩
      · exact storeGet_of_not_used s opts.releaseName _ (nextVersion_not_mem _)
      · intro hk hkm
        exact hfresh hk hkm

theorem install_dryRun_frame_witness :
    (dryOpts.dryRun = true ∧ ∀ hk ∈ chartFix.hooks, hk.lastRunCompletedAt = 0) ∧
    (install dryOpts chartFix quietEnv []).store = [] :=
  ⟨⟨rfl, by decide⟩,
    (install_dryRun_frame dryOpts chartFix quietEnv [] rfl (by decide)).1⟩

/-- Claim C7: with secret-hiding set, a dry-run Install succeeds and returns
manifest text equal to the rendered output with sensitive-kind blocks elided
(every non-sensitive block still occurs in the text); without dry-run the
call is rejected with a validation error before any side effect on the store. -/
theorem install_hideSecret_spec
    (opts : InstallOpts) (ch : Chart) (env : ClusterEnv) (s : Store)
    (hhide : opts.hideSecret = true)
    (hname : ¬ opts.releaseName = "")
    (hava : nameAvailable opts s = true) :
    (opts.dryRun = true →
      (install opts ch env s).err = none ∧
      ∃ rel, (install opts ch env s).rel = some rel ∧
        rel.manifest =
          joinManifests (ch.resources.filter (fun m => !(m.kind == secretKind))) ∧
        ∀ m ∈ ch.resources, ¬(m.kind = secretKind) →
          strContains rel.manifest (manifestEntryText m) = true) ∧
    (opts.dryRun = false →
      (install opts ch env s).err = some (InstallError.validation hideSecretMsg) ∧
      (install opts ch env s).rel = none ∧
      (install opts ch env s).store = s) := by
  constructor
  · intro hdry
    have hp : preflight opts s = none := by
      unfold preflight
      rw [if_neg hname]
      rw [if_neg (by simp [hdry])]
      rw [hava]
      simp
    rw [install_dryRun_eq opts ch env s hp hdry]
    refine ⟨rfl,
      dryRunRelease opts ch (nextVersion (usedVersions s opts.releaseName)),
      rfl, ?_, ?_⟩
    · show renderedManifest ch opts.hideSecret = _
      rw [hhide]
      rfl
    · intro m hm hks
      show strContains (renderedManifest ch opts.hideSecret) _ = true
      rw [hhide]
      unfold renderedManifest keptResources
      rw [if_pos rfl]
      apply strContains_joinManifests
      exact List.mem_filter.mpr ⟨hm, by simp [hks]⟩
  · intro hdry
    have hp : preflight opts s = some (InstallError.validation hideSecretMsg) := by
      unfold preflight
      rw [if_neg hname, if_pos ⟨hhide, hdry⟩]
    rw [install_preflight_some_eq opts ch env s _ hp]
    exact ⟨rfl, rfl, rfl⟩

/-- Baseline options combining dry-run with secret-hiding. -/
def hideOpts : InstallOpts := { baseOpts with dryRun := true, hideSecret := true }

theorem install_hideSecret_spec_witness :
    (hideOpts.hideSecret = true ∧ ¬ hideOpts.releaseName = "" ∧
      nameAvailable hideOpts [] = true ∧ hideOpts.dryRun = true) ∧
    (install hideOpts chartWithSecret quietEnv []).err = none :=
  ⟨⟨rfl, by decide, rfl, rfl⟩,
    ((install_hideSecret_spec hideOpts chartWithSecret quietEnv []
      rfl (by decide) rfl).1 rfl).1⟩

/-- The opening brace delimiter character of a template action. -/
def lbrace : Char := Char.ofNat 123

/-- The closing brace delimiter character of a template action. -/
def rbrace : Char := Char.ofNat 125

/-- Parse-error message for an unterminated template action. -/
def unclosedMsg : String := "template: name-template:1: unclosed action"

/-- Error message for a template referencing an undefined function. -/
def funcUndefinedMsg (f : List Char) : String :=
  "function \"" ++ String.mk f ++ "\" not defined"

/-- A decimal digit character derived from a numeric state. -/
def digitChar (m : Nat) : Char := Char.ofNat (48 + m % 10)

/-- Modelled from the spec: the random-numeric function's output — a pseudo
random segment of exactly `k` decimal digits, driven by an explicit seed
(spec section 4.1 step 1, name-template evaluation). -/
def randDigits (seed k : Nat) : List Char :=
  (List.range k).map (fun i => digitChar (seed + i))

/-- Split a character list at its first space, if any. -/
def splitFirstSpace : List Char → List Char × Option (List Char)
  | [] => ([], none)
  | c :: cs =>
      if c = ' ' then ([], some cs)
      else
        match splitFirstSpace cs with
        | (w, r) => (c :: w, r)

/-- Numeric value of a decimal digit character. -/
def digitVal (c : Char) : Option Nat :=
  if '0' ≤ c ∧ c ≤ '9' then some (c.toNat - 48) else none

/-- Accumulating decimal parser over digit characters. -/
def parseNatAux : List Char → Nat → Option Nat
  | [], acc => some acc
  | c :: cs, acc =>
      match digitVal c with
      | some d => parseNatAux cs (acc * 10 + d)
      | none => none

/-- Decimal parser: a nonempty all-digit character list. -/
def parseNatD (l : List Char) : Option Nat :=
  if l.isEmpty then none else parseNatAux l 0

/-- The one function of the curated template function set used by the tests. -/
def randNumericTok : List Char := "randNumeric".data

/-- Modelled from the spec: evaluation of one template action through the
restricted engine's curated function set; an unknown function name yields the
function-not-defined error (spec section 4.1 step 1). -/
def evalAction (seed : Nat) (inner : List Char) : Except String (List Char) :=
  match splitFirstSpace inner with
  | (f, none) =>
      if f = randNumericTok then Except.error "randNumeric: expected one argument"
      else Except.error (funcUndefinedMsg f)
  | (f, some rest) =>
      if f = randNumericTok then
        match parseNatD rest with
        | some k => Except.ok (randDigits seed k)
        | none => Except.error "randNumeric: invalid argument"
      else Except.error (funcUndefinedMsg f)

/-- Modelled from the spec: the template scanner — outside an action
(`mode = none`) text is copied until a double open brace; inside an action
(`mode = some acc`) characters accumulate until a double close brace, and an
unterminated action is a parse error (spec section 4.1 step 1). -/
def runT (seed : Nat) (mode : Option (List Char)) :
    List Char → Except String (List Char)
  | [] =>
      match mode with
      | none => Except.ok []
      | some _ => Except.error unclosedMsg
  | [c] =>
      match mode with
      | none => Except.ok [c]
      | some _ => Except.error unclosedMsg
  | c :: d :: rest =>
      match mode with
      | none =>
          if c = lbrace ∧ d = lbrace then runT seed (some []) rest
          else
            match runT seed none (d :: rest) with
            | Except.ok t => Except.ok (c :: t)
            | Except.error e => Except.error e
      | some acc =>
          if c = rbrace ∧ d = rbrace then
            match evalAction seed acc with
            | Except.error e => Except.error e
            | Except.ok v =>
                match runT seed none rest with
                | Except.ok t => Except.ok (v ++ t)
                | Except.error e => Except.error e
          else runT seed (some (acc ++ [c])) (d :: rest)

/-- Modelled from the spec: `TemplateName` — evaluation of a name-template
expression through the restricted text-templating engine (spec section 4.1
step 1). -/
def TemplateName (seed : Nat) (tpl : String) : Except String String :=
  match runT seed none tpl.data with
  | Except.ok l => Except.ok (String.mk l)
  | Except.error e => Except.error e

theorem splitFirstSpace_no_space (f : List Char) (h : ∀ c ∈ f, c ≠ ' ') :
    splitFirstSpace f = (f, none) := by
  induction f with
  | nil => rfl
  | cons c cs ih =>
      simp only [splitFirstSpace]
      rw [if_neg (h c (List.mem_cons_self c cs))]
      rw [ih (fun x hx => h x (List.mem_cons_of_mem c hx))]

theorem splitFirstSpace_with_space (f rest : List Char) (h : ∀ c ∈ f, c ≠ ' ') :
    splitFirstSpace (f ++ ' ' :: rest) = (f, some rest) := by
  induction f with
  | nil => simp [splitFirstSpace]
  | cons c cs ih =>
      simp only [List.cons_append, splitFirstSpace, List.append_eq]
      rw [if_neg (h c (List.mem_cons_self c cs))]
      rw [ih (fun x hx => h x (List.mem_cons_of_mem c hx))]

theorem evalAction_rand (seed : Nat) (arg : List Char) (k : Nat)
    (hp : parseNatD arg = some k) :
    evalAction seed (randNumericTok ++ ' ' :: arg) =
      Except.ok (randDigits seed k) := by
  unfold evalAction
  rw [splitFirstSpace_with_space randNumericTok arg (by decide)]
  simp [hp]

theorem evalAction_undefined (seed : Nat) (f : List Char)
    (hsp : ∀ c ∈ f, c ≠ ' ') (hne : f ≠ randNumericTok) :
    evalAction seed f = Except.error (funcUndefinedMsg f) := by
  unfold evalAction
  rw [splitFirstSpace_no_space f hsp]
  simp [hne]

theorem parseNatAux_digits (l : List Char) :
    ∀ acc k, parseNatAux l acc = some k → ∀ c ∈ l, '0' ≤ c ∧ c ≤ '9' := by
  induction l with
  | nil => intro acc k _ c hc; cases hc
  | cons x xs ih =>
      intro acc k hp c hc
      simp only [parseNatAux] at hp
      cases hd : digitVal x with
      | none => rw [hd] at hp; simp at hp
      | some d =>
          rw [hd] at hp
          rcases List.mem_cons.mp hc with rfl | hc'
          · by_cases hb : '0' ≤ c ∧ c ≤ '9'
            · exact hb
            · unfold digitVal at hd
              rw [if_neg hb] at hd
              simp at hd
          · exact ih (acc * 10 + d) k hp c hc'

theorem parseNatD_digits (arg : List Char) (k : Nat)
    (hp : parseNatD arg = some k) : ∀ c ∈ arg, '0' ≤ c ∧ c ≤ '9' := by
  unfold parseNatD at hp
  by_cases he : arg.isEmpty
  · rw [if_pos he] at hp; simp at hp
  · rw [if_neg he] at hp
    exact parseNatAux_digits arg 0 k hp

theorem digit_ne_rbrace (c : Char) (h : '0' ≤ c ∧ c ≤ '9') : c ≠ rbrace := by
  intro he
  subst he
  exact absurd h (by decide)

theorem digitChar_isDigit (m : Nat) : (digitChar m).isDigit = true := by
  unfold digitChar
  have h : m % 10 < 10 := Nat.mod_lt _ (by omega)
  set r := m % 10 with hr
  interval_cases r <;> decide

theorem runT_text_front (seed : Nat) (pre : List Char) :
    ∀ rest, (∀ c ∈ pre, c ≠ lbrace) →
      runT seed none (pre ++ rest) =
        match runT seed none rest with
        | Except.ok t => Except.ok (pre ++ t)
        | Except.error e => Except.error e := by
  induction pre with
  | nil =>
      intro rest _
      cases h : runT seed none rest <;> simp [h]
  | cons a as ih =>
      intro rest hpre
      have ha : a ≠ lbrace := hpre a (List.mem_cons_self a as)
      cases hcr : as ++ rest with
      | nil =>
          obtain ⟨rfl, rfl⟩ := List.append_eq_nil.mp hcr
          simp [runT]
      | cons b t =>
          rw [List.cons_append, hcr]
          simp only [runT]
          rw [if_neg (fun hand => ha hand.1)]
          rw [← hcr]
          rw [ih rest (fun c hc => hpre c (List.mem_cons_of_mem a hc))]
          cases h : runT seed none rest <;> simp

theorem runT_unclosed (seed : Nat) :
    ∀ rest acc, (∀ c ∈ rest, c ≠ rbrace) →
      runT seed (some acc) rest = Except.error unclosedMsg := by
  intro rest
  induction rest with
  | nil => intro acc _; rfl
  | cons c cs ih =>
      intro acc h
      cases cs with
      | nil => rfl
      | cons d t =>
          simp only [runT]
          rw [if_neg (fun hand => h c (List.mem_cons_self c (d :: t)) hand.1)]
          exact ih (acc ++ [c]) (fun x hx => h x (List.mem_cons_of_mem c hx))

theorem runT_inAction (seed : Nat) :
    ∀ inner acc rest, (∀ c ∈ inner, c ≠ rbrace) →
      runT seed (some acc) (inner ++ rbrace :: rbrace :: rest) =
        match evalAction seed (acc ++ inner) with
        | Except.error e => Except.error e
        | Except.ok v =>
            match runT seed none rest with
            | Except.ok t => Except.ok (v ++ t)
            | Except.error e => Except.error e := by
  intro inner
  induction inner with
  | nil =>
      intro acc rest _
      simp only [List.nil_append, List.append_nil, runT]
      rw [if_pos ⟨trivial, trivial⟩]
  | cons x xs ih =>
      intro acc rest h
      have hx : x ≠ rbrace := h x (List.mem_cons_self x xs)
      cases hxt : xs ++ rbrace :: rbrace :: rest with
      | nil => simp at hxt
      | cons y t =>
          rw [List.cons_append, hxt]
          simp only [runT]
          rw [if_neg (fun hand => hx hand.1)]
          rw [← hxt]
          rw [ih (acc ++ [x]) rest (fun c hc => h c (List.mem_cons_of_mem x hc))]
          rw [List.append_assoc, List.singleton_append]

theorem runT_braceFree (seed : Nat) (l : List Char) (h : ∀ c ∈ l, c ≠ lbrace) :
    runT seed none l = Except.ok l := by
  have hh := runT_text_front seed l [] h
  rw [List.append_nil] at hh
  rw [hh]
  simp [runT]

theorem runT_enter_action (seed : Nat) (t : List Char) :
    runT seed none (lbrace :: lbrace :: t) = runT seed (some []) t := by
  simp only [runT]
  rw [if_pos ⟨trivial, trivial⟩]

/-- Claim C8: a name template invoking the random-numeric function with an
argument parsing to `k` yields the surrounding text with a random segment of
exactly `k` decimal digits; referencing an undefined function fails with the
`function "<name>" not defined` error; an unterminated action fails with the
`unclosed action` parse error; and a template with no actions evaluates to
itself. -/
theorem templateName_spec (seed : Nat) :
    (∀ pre arg post k, (∀ c ∈ pre, c ≠ lbrace) → (∀ c ∈ post, c ≠ lbrace) →
      parseNatD arg = some k →
      TemplateName seed (String.mk
        (pre ++ (lbrace :: lbrace ::
          (randNumericTok ++ ' ' :: arg ++ rbrace :: rbrace :: post)))) =
        Except.ok (String.mk (pre ++ (randDigits seed k ++ post))) ∧
      (randDigits seed k).length = k ∧
      ∀ c ∈ randDigits seed k, c.isDigit = true) ∧
    (∀ pre f rest, (∀ c ∈ pre, c ≠ lbrace) → f ≠ [] → f ≠ randNumericTok →
      (∀ c ∈ f, c ≠ ' ' ∧ c ≠ rbrace) →
      TemplateName seed (String.mk
        (pre ++ (lbrace :: lbrace :: (f ++ rbrace :: rbrace :: rest)))) =
        Except.error (funcUndefinedMsg f)) ∧
    (∀ pre rest, (∀ c ∈ pre, c ≠ lbrace) → (∀ c ∈ rest, c ≠ rbrace) →
      TemplateName seed (String.mk (pre ++ (lbrace :: lbrace :: rest))) =
        Except.error unclosedMsg ∧
      strContains unclosedMsg "unclosed action" = true) ∧
    (∀ l, (∀ c ∈ l, c ≠ lbrace) →
      TemplateName seed (String.mk l) = Except.ok (String.mk l)) := by
  refine ⟨?_, ?_, ?_, ?_⟩
  · intro pre arg post k hpre hpost hp
    have hdig := parseNatD_digits arg k hp
    have hinner : ∀ c ∈ randNumericTok ++ ' ' :: arg, c ≠ rbrace := by
      intro c hc
      rcases List.mem_append.mp hc with h1 | h2
      · have htok : ∀ c ∈ randNumericTok, c ≠ rbrace := by decide
        exact htok c h1
      · rcases List.mem_cons.mp h2 with rfl | h3
        · decide
        · exact digit_ne_rbrace c (hdig c h3)
    refine ⟨?_, by simp [randDigits], fun c hc => ?_⟩
    · have hrun : runT seed none
          (pre ++ (lbrace :: lbrace ::
            (randNumericTok ++ ' ' :: arg ++ rbrace :: rbrace :: post))) =
          Except.ok (pre ++ (randDigits seed k ++ post)) := by
        rw [runT_text_front seed pre _ hpre]
        rw [runT_enter_action]
        rw [runT_inAction seed (randNumericTok ++ ' ' :: arg) [] post hinner]
        rw [List.nil_append]
        rw [evalAction_rand seed arg k hp]
        rw [runT_braceFree seed post hpost]
      unfold TemplateName
      rw [show (String.mk (pre ++ (lbrace :: lbrace ::
        (randNumericTok ++ ' ' :: arg ++ rbrace :: rbrace :: post)))).data =
        pre ++ (lbrace :: lbrace ::
          (randNumericTok ++ ' ' :: arg ++ rbrace :: rbrace :: post)) from rfl]
      rw [hrun]
    · obtain ⟨i, _, rfl⟩ := List.mem_map.mp hc
      exact digitChar_isDigit _
  · intro pre f rest hpre _ hne hf
    have hrun : runT seed none
        (pre ++ (lbrace :: lbrace :: (f ++ rbrace :: rbrace :: rest))) =
        Except.error (funcUndefinedMsg f) := by
      rw [runT_text_front seed pre _ hpre]
      rw [runT_enter_action]
      rw [runT_inAction seed f [] rest (fun c hc => (hf c hc).2)]
      rw [List.nil_append]
      rw [evalAction_undefined seed f (fun c hc => (hf c hc).1) hne]
    unfold TemplateName
    rw [show (String.mk (pre ++ (lbrace :: lbrace ::
      (f ++ rbrace :: rbrace :: rest)))).data =
      pre ++ (lbrace :: lbrace :: (f ++ rbrace :: rbrace :: rest)) from rfl]
    rw [hrun]
  · intro pre rest hpre hrest
    refine ⟨?_, by decide⟩
    have hrun : runT seed none (pre ++ (lbrace :: lbrace :: rest)) =
        Except.error unclosedMsg := by
      rw [runT_text_front seed pre _ hpre]
      rw [runT_enter_action]
      rw [runT_unclosed seed rest [] hrest]
    unfold TemplateName
    rw [show (String.mk (pre ++ (lbrace :: lbrace :: rest))).data =
      pre ++ (lbrace :: lbrace :: rest) from rfl]
    rw [hrun]
  · intro l h
    unfold TemplateName
    rw [show (String.mk l).data = l from rfl]
    rw [runT_braceFree seed l h]

theorem templateName_spec_witness :
    (parseNatD "6".data = some 6) ∧
    (TemplateName 0 (String.mk
      ("foobar-".data ++ (lbrace :: lbrace ::
        (randNumericTok ++ ' ' :: "6".data ++ rbrace :: rbrace :: [])))) =
      Except.ok (String.mk ("foobar-".data ++ (randDigits 0 6 ++ []))) ∧
    (randDigits 0 6).length = 6 ∧
    ∀ c ∈ randDigits 0 6, c.isDigit = true) :=
  ⟨rfl,
    (templateName_spec 0).1 "foobar-".data "6".data [] 6
      (by decide) (by decide) rfl⟩

/-- Translated from `pkg/cmd/upgrade.go`: `isReleaseUninstalled(versions)` is
`len(versions) > 0 && versions[len(versions)-1].Info.Status == StatusUninstalled`. -/
def isReleaseUninstalled (versions : List Release) : Bool :=
  decide (0 < versions.length) &&
    (match versions.getLast? with
     | some r => r.status == Status.uninstalled
     | none => false)

/-- Outcome of the upgrade command's install-on-missing check. -/
inductive UpgradeDecision where
  | delegateInstall (replace : Bool)
  | proceedUpgrade
  | fail (e : DriverError)
deriving DecidableEq, Repr

/-- Translated from `pkg/cmd/upgrade.go` (`newUpgradeCmd`, the `client.Install`
branch): with the install flag set, the history lookup's outcome decides —
delegate to Install when the error is the `ErrReleaseNotFound` sentinel
(compared by identity) or when `isReleaseUninstalled(versions)`; the delegated
Install gets `Replace` exactly when `isReleaseUninstalled(versions)`; any
other lookup error fails the command; otherwise the upgrade proceeds. -/
def upgradeInstallDecision (versions : List Release) (err : Option DriverError) :
    UpgradeDecision :=
  if err = some DriverError.releaseNotFound ∨ isReleaseUninstalled versions = true then
    UpgradeDecision.delegateInstall (isReleaseUninstalled versions)
  else
    match err with
    | some e => UpgradeDecision.fail e
    | none => UpgradeDecision.proceedUpgrade

/-- Claim C9: the upgrade command delegates to Install exactly when the history
lookup returns the release-not-found sentinel (by identity) or the latest
recorded version's status is `uninstalled`; in the uninstalled case the
delegated Install has `Replace` set; and `isReleaseUninstalled` on an empty
version list is false. -/
theorem upgrade_install_delegation_spec :
    (∀ versions err,
      (∃ r, upgradeInstallDecision versions err = UpgradeDecision.delegateInstall r) ↔
      (err = some DriverError.releaseNotFound ∨ isReleaseUninstalled versions = true)) ∧
    (∀ versions err r,
      upgradeInstallDecision versions err = UpgradeDecision.delegateInstall r →
      r = isReleaseUninstalled versions) ∧
    (isReleaseUninstalled [] = false) ∧
    (∀ versions last, versions.getLast? = some last →
      (isReleaseUninstalled versions = true ↔ last.status = Status.uninstalled)) := by
  refine ⟨?_, ?_, rfl, ?_⟩
  · intro versions err
    unfold upgradeInstallDecision
    by_cases hc : err = some DriverError.releaseNotFound ∨
        isReleaseUninstalled versions = true
    · rw [if_pos hc]
      exact ⟨fun _ => hc, fun _ => ⟨isReleaseUninstalled versions, rfl⟩⟩
    · rw [if_neg hc]
      constructor
      · intro ⟨r, hr⟩
        cases err <;> simp at hr
      · intro h
        exact absurd h hc
  · intro versions err r h
    unfold upgradeInstallDecision at h
    by_cases hc : err = some DriverError.releaseNotFound ∨
        isReleaseUninstalled versions = true
    · rw [if_pos hc] at h
      injection h with h
      exact h.symm
    · rw [if_neg hc] at h
      cases err <;> simp at h
  · intro versions last hl
    unfold isReleaseUninstalled
    rw [hl]
    have hne : versions ≠ [] := by
      intro he
      subst he
      simp at hl
    constructor
    · intro h
      rw [Bool.and_eq_true] at h
      exact beq_iff_eq.mp h.2
    · intro h
      rw [Bool.and_eq_true]
      exact ⟨decide_eq_true (List.length_pos.mpr hne), beq_iff_eq.mpr h⟩

theorem upgrade_install_delegation_spec_witness :
    (isReleaseUninstalled [uninstalledV1] = true) ∧
    (∃ r, upgradeInstallDecision [uninstalledV1] none =
      UpgradeDecision.delegateInstall r) :=
  ⟨rfl,
    (upgrade_install_delegation_spec.1 [uninstalledV1] none).mpr (Or.inr rfl)⟩

/-- Naming inputs of the install command's name resolution. -/
structure NameOpts where
  releaseName : String
  nameTemplate : String
  generateName : Bool
deriving DecidableEq, Repr

/-- Validation message for an explicit name combined with generate-name. -/
def genNameConflictMsg : String := "cannot set --generate-name and also specify a name"

/-- Validation message for an explicit name combined with a name template. -/
def nameTemplateConflictMsg : String :=
  "cannot set --name-template and also specify a name"

/-- Validation message when neither a name nor generate-name is supplied. -/
def mustProvideNameMsg : String :=
  "must either provide a name or specify --generate-name"

/-- Leading text of the too-many-arguments error. -/
def tooManyArgsPre : String := "expected at most two arguments, unexpected arguments: "

/-- Modelled from the spec: the conflict check applied when an explicit name is
supplied as the first positional argument (spec section 4.1 step 1; messages
pinned by the shipped test suite). -/
def flagsNotSet (o : NameOpts) : Option String :=
  if o.generateName then some genNameConflictMsg
  else if ¬ o.nameTemplate = "" then some nameTemplateConflictMsg
  else none

/-- Modelled from the spec: `NameAndChart` — resolution of the release name and
chart from the positional arguments: explicit name, name-template expression,
or generated name (spec section 4.1 step 1; behavior pinned by the shipped
test suite). -/
def NameAndChart (o : NameOpts) (seed : Nat) (args : List String) :
    Except String (String × String) :=
  if 2 < args.length then
    Except.error (tooManyArgsPre ++ String.intercalate ", " (args.drop 2))
  else
    match args with
    | [a0, a1] =>
        match flagsNotSet o with
        | some e => Except.error e
        | none => Except.ok (a0, a1)
    | [a0] =>
        if ¬ o.nameTemplate = "" then
          match TemplateName seed o.nameTemplate with
          | Except.ok n => Except.ok (n, a0)
          | Except.error e => Except.error e
        else if ¬ o.releaseName = "" then Except.ok (o.releaseName, a0)
        else if o.generateName = false then Except.error mustProvideNameMsg
        else Except.ok (a0 ++ "-" ++ Nat.repr seed, a0)
    | _ => Except.error "chart is required"

/-- Claim C10: `NameAndChart` rejects conflicting or missing naming inputs with
distinct validation errors: an explicit name with generate-name, an explicit
name with a name template, neither a name nor generate-name, and more than
two positional arguments (naming the unexpected ones). -/
theorem nameAndChart_validation_spec (seed : Nat) :
    (∀ o a0 a1, o.generateName = true →
      NameAndChart o seed [a0, a1] = Except.error genNameConflictMsg) ∧
    (∀ o a0 a1, o.generateName = false → ¬ o.nameTemplate = "" →
      NameAndChart o seed [a0, a1] = Except.error nameTemplateConflictMsg) ∧
    (∀ o a0, o.nameTemplate = "" → o.releaseName = "" → o.generateName = false →
      NameAndChart o seed [a0] = Except.error mustProvideNameMsg) ∧
    (∀ o a0 a1 rest, rest ≠ [] →
      NameAndChart o seed (a0 :: a1 :: rest) =
        Except.error (tooManyArgsPre ++ String.intercalate ", " rest)) := by
  refine ⟨?_, ?_, ?_, ?_⟩
  · intro o a0 a1 hg
    unfold NameAndChart
    rw [if_neg (by simp)]
    unfold flagsNotSet
    rw [hg]
    rfl
  · intro o a0 a1 hg ht
    unfold NameAndChart
    rw [if_neg (by simp)]
    unfold flagsNotSet
    rw [hg]
    simp only [Bool.false_eq_true, if_false]
    rw [if_pos ht]
  · intro o a0 ht hr hg
    unfold NameAndChart
    rw [if_neg (by simp)]
    simp only [ht, hr, hg]
    rfl
  · intro o a0 a1 rest hne
    unfold NameAndChart
    rw [if_pos (by
      simp only [List.length_cons]
      have := List.length_pos.mpr hne
      omega)]
    rfl

theorem nameAndChart_validation_spec_witness :
    (({ releaseName := "foo", nameTemplate := "", generateName := true } :
        NameOpts).generateName = true) ∧
    NameAndChart { releaseName := "foo", nameTemplate := "", generateName := true }
      0 ["foo", "./foo"] = Except.error genNameConflictMsg :=
  ⟨rfl,
    (nameAndChart_validation_spec 0).1
      { releaseName := "foo", nameTemplate := "", generateName := true }
      "foo" "./foo" rfl⟩

end Helm
